/-
Verification of `download_tickets.py` (cmenon12/download-trainline-tickets).

Shallow embedding of the script's core pipeline:
  * `parse_message`             — link extraction from the e-mail's HTML part
  * `fetch_tickets` / `fetchOne` — the two-step ticket resolution protocol
  * `check_if_already_processed` — the two-tier "already processed?" decision
  * `prepare_ticket_email`, `stepMsg`, `runScan` — the orchestrating main loop

External collaborators (IMAP server, HTTP, BeautifulSoup link listing) are
modelled as explicit parameters (`Mailbox`, `World`, `links`); the logic that
consumes them is translated line by line from the Python source.  Python
exceptions (`IndexError` from `[1]` / `[0]` indexing, `requests.HTTPError`
from `raise_for_status`) are modelled with `Except`.
-/
import Mathlib

set_option autoImplicit false

namespace DownloadTickets

/-! ### String helpers (Python primitives) -/

/-- Substring scan: does `needle` occur contiguously in `hay`? -/
def infixAux (needle : List Char) : List Char → Bool
  | [] => needle.isEmpty
  | c :: rest => needle.isPrefixOf (c :: rest) || infixAux needle rest

/-- Python's `needle in hay` substring test. -/
def strContains (hay needle : String) : Bool :=
  infixAux needle.data hay.data

/-- Python's `str.split(sep)` for a non-empty separator, on character lists.
`acc` holds the (reversed) characters of the current field.  The recursion is
driven by a fuel argument (each step consumes at least one character, so fuel
equal to the input length is enough; the `0` fallback is unreachable then). -/
def pySplitAux (sep : List Char) : Nat → List Char → List Char → List (List Char)
  | _, [], acc => [acc.reverse]
  | 0, l, acc => [acc.reverse ++ l]
  | fuel + 1, c :: rest, acc =>
    if sep.isPrefixOf (c :: rest) then
      acc.reverse :: pySplitAux sep fuel (List.drop (sep.length - 1) rest) []
    else
      pySplitAux sep fuel rest (c :: acc)

/-- Python's `str.split(sep)` (non-empty `sep`, no maxsplit). -/
def pySplit (sep s : String) : List String :=
  (pySplitAux sep.data s.data.length s.data []).map (fun l => String.mk l)

/-! ### The `requestId` regular expression

`re.search(r"var requestId = '(.*?)';", s)`: leftmost occurrence of the
literal prefix, then the lazy group takes the shortest run of non-newline
characters up to the closing `';`. -/

/-- The literal part of the pattern, `var requestId = '`. -/
def reqIdLit : List Char := "var requestId = '".data

/-- The closing delimiter of the pattern, `';`. -/
def reqIdEnd : List Char := "';".data

/-- The lazy group `(.*?)` followed by `';`: the characters before the first
occurrence of `';`, failing if a newline (which `.` does not match) comes
first or the delimiter never occurs. -/
def lazyGroup : List Char → Option (List Char)
  | [] => none
  | c :: rest =>
    if reqIdEnd.isPrefixOf (c :: rest) then some []
    else if c = '\n' then none
    else (lazyGroup rest).map (fun l => c :: l)

/-- Scan for the leftmost position where the whole pattern matches. -/
def findReqIdAux : List Char → Option (List Char)
  | [] => none
  | c :: rest =>
    if reqIdLit.isPrefixOf (c :: rest) then
      match lazyGroup (List.drop reqIdLit.length (c :: rest)) with
      | some grp => some grp
      | none => findReqIdAux rest
    else findReqIdAux rest

/-- Model of `re.search(r"var requestId = '(.*?)';", s)`, returning group 1. -/
def findReqId (s : String) : Option String :=
  (findReqIdAux s.data).map (fun l => String.mk l)

/-! ### Data model of the resolver -/

/-- The marker embedded in Message-IDs generated by this script
(`EMAIl_ID_STRING` in the source, sic). -/
def EMAIl_ID_STRING : String := "cmenon12-download-trainline-tickets"

/-- The response to the second (resource) GET: status, `Content-Type`,
`Content-Disposition` and body. -/
structure SecondResp where
  status : Nat
  contentType : String
  contentDisposition : String
  body : String
deriving DecidableEq

/-- The HTTP world the resolver talks to: `landing url` is the status and the
list of `<script>` blocks (`script.string`, `none` when the block has no
inline string) of the first GET; `resource url cookies` is the second GET. -/
structure World where
  landing : String → Nat × List (Option String)
  resource : String → List (String × String) → SecondResp

/-- A downloaded ticket: the `MIMEBase` object built in `fetch_tickets`
(filename from the `Content-Disposition` split, payload, raw header). -/
structure Ticket where
  filename : String
  payload : String
  disposition : String
deriving DecidableEq

/-- Instrumentation: the second GET actually issued (its URL and the cookies
carried by the session at that point). -/
structure HttpRequest where
  url : String
  cookies : List (String × String)
deriving DecidableEq

/-- Python exceptions that can escape `fetch_tickets`: `requests.HTTPError`
from `raise_for_status` and `IndexError` from `[0]` / `[1]` indexing. -/
inductive FetchErr where
  | httpError : Nat → FetchErr
  | indexError : FetchErr
deriving DecidableEq

/-- One iteration of the `for url in urls` loop of `fetch_tickets`.
Returns the outcome (an exception, or `none` = "skipped, no ticket", or a
ticket) together with the second GET issued, when one was issued. -/
def fetchOne (w : World) (url : String) : Except FetchErr (Option Ticket) × Option HttpRequest :=
  match w.landing url with
  | (st, scripts) =>
    -- response.raise_for_status(): raises for 4xx/5xx
    if 400 ≤ st then (.error (.httpError st), none)
    else
      -- all_js = [script.string for script in scripts if script.string is not None]
      match (scripts.filterMap id).head? with
      | none => (.error .indexError, none)          -- all_js[0] raises IndexError
      | some firstJs =>
        match findReqId firstJs with
        | none => (.ok none, none)                  -- "could not find request ID", continue
        | some reqId =>
          -- token = url.split("#")[1]
          match (pySplit "#" url).get? 1 with
          | none => (.error .indexError, none)      -- no '#': IndexError
          | some token =>
            let cookies := [("token-" ++ reqId, token)]
            let url2 := "https://download.thetrainline.com/resource/" ++ reqId
            let req : HttpRequest := { url := url2, cookies := cookies }
            let resp := w.resource url2 cookies
            if 400 ≤ resp.status then (.error (.httpError resp.status), some req)
            else if resp.contentType ≠ "application/pdf" then (.ok none, some req)
            else
              -- filename = response.headers["Content-Disposition"].split("filename=")[1]
              match (pySplit "filename=" resp.contentDisposition).get? 1 with
              | none => (.error .indexError, some req)
              | some fn =>
                (.ok (some { filename := fn, payload := resp.body,
                             disposition := resp.contentDisposition }), some req)

/-- The loop of `fetch_tickets`: accumulates tickets and issued requests;
a raised exception aborts the whole call (earlier tickets are lost). -/
def fetchLoop (w : World) : List String → List Ticket → List HttpRequest →
    Except FetchErr (List Ticket) × List HttpRequest
  | [], ts, rs => (.ok ts, rs)
  | url :: rest, ts, rs =>
    match fetchOne w url with
    | (.error e, r) => (.error e, rs ++ r.toList)
    | (.ok t, r) => fetchLoop w rest (ts ++ t.toList) (rs ++ r.toList)

/-- Model of `fetch_tickets(urls)`: the list of resolved tickets, plus (as ghost
instrumentation) the resource GETs that were issued. -/
def fetch_tickets (w : World) (urls : List String) :
    Except FetchErr (List Ticket) × List HttpRequest :=
  fetchLoop w urls [] []

/-! ### Link extraction (`parse_message`) -/

/-- One MIME part as the script sees it: its content type and decoded body. -/
structure MimePart where
  contentType : String
  body : String
deriving DecidableEq

/-- An e-mail message: multipart (list of parts) or a single-part body. -/
inductive EmailMsg where
  | multipart : List MimePart → EmailMsg
  | single : MimePart → EmailMsg
deriving DecidableEq

/-- The `html` variable at the end of the first half of `parse_message`: in
the multipart branch the loop body `html = part.get_payload...` reassigns on
every `text/html` part, so the last such part wins. -/
def htmlOfMessage : EmailMsg → Option String
  | .multipart parts =>
    parts.foldl (fun acc p => if p.contentType = "text/html" then some p.body else acc) none
  | .single p => if p.contentType = "text/html" then some p.body else none

/-- Model of `parse_message(message)`.  `links` is BeautifulSoup: the `href` values of
all `<a href=...>` tags of an HTML document, in document order.  Note the
`if html:` test, under which an empty HTML string counts as "no HTML". -/
def parse_message (links : String → List String) (msg : EmailMsg) : List String :=
  match htmlOfMessage msg with
  | some h =>
    if h = "" then []
    else (links h).filter (fun u => strContains u "download.thetrainline.com")
  | none => []

/-! ### The processed-set ledger and `check_if_already_processed` -/

/-- One entry of `completed_messages.json`: `{"id":…, "date":…, "subject":…}`.
Dates are modelled as integers. -/
structure PRecord where
  id : String
  date : Int
  subject : String
deriving DecidableEq

/-- A message already sitting in the mailbox, as seen by the corroboration
search (its Message-ID and Subject headers). -/
structure MailMsg where
  messageId : String
  subject : String
deriving DecidableEq

/-- The IMAP mailbox as seen by `check_if_already_processed`: its messages,
and whether `server.search` returns status `"OK"`. -/
structure Mailbox where
  msgs : List MailMsg
  searchOk : Bool
deriving DecidableEq

/-- A candidate source e-mail fetched by the scanner. -/
structure SourceMsg where
  messageId : String
  subject : String
  date : Int
  toAddr : String
  msg : EmailMsg
deriving DecidableEq

/-- Model of `check_if_already_processed(server, message, completed)`.  Returns the
boolean result paired with whether any mailbox search was performed (ghost
instrumentation; the source performs the search exactly on the paths marked
`true`).  Tier 1 is ledger membership; a failed search counts as processed;
tier 2 searches for subjects containing `Re <subject>` and looks for the
script's marker inside their Message-ID. -/
def check_if_already_processed (mbox : Mailbox) (m : SourceMsg)
    (completed : List PRecord) : Bool × Bool :=
  if m.messageId ∈ completed.map (fun c => c.id) then (true, false)
  else if mbox.searchOk = false then (true, true)
  else
    ((mbox.msgs.filter (fun mm => strContains mm.subject ("Re " ++ m.subject))).any
      (fun mm => strContains mm.messageId EMAIl_ID_STRING), true)

/-! ### Reply composition and the main loop -/

/-- The reply e-mail built by `prepare_ticket_email`. -/
structure ReplyEmail where
  subject : String
  toAddr : String
  fromAddr : String
  date : Int
  messageId : String
  inReplyTo : String
  references : String
  attachments : List Ticket
deriving DecidableEq

/-- A successful `server.append`, tagged with the source message it replies
to. -/
structure AppendRec where
  sourceId : String
  reply : ReplyEmail
deriving DecidableEq

/-- The run environment: the mailbox, the HTML link lister, the HTTP world,
whether `server.append` / `server.fetch` report `"OK"`, the lower date bound
`since`, and the config values used by the composer. -/
structure Env where
  mbox : Mailbox
  links : String → List String
  world : World
  appendOk : Bool
  fetchOk : String → Bool
  since : Int
  fromAddr : String
  imapHost : String

/-- The ledger record appended for a processed message. -/
def recordOf (m : SourceMsg) : PRecord :=
  { id := m.messageId, date := m.date, subject := m.subject }

/-- Model of `prepare_ticket_email(message, email_config)`: `none` models Python's
`None` (no URLs, or zero tickets); exceptions from `fetch_tickets`
propagate. -/
def prepare_ticket_email (env : Env) (m : SourceMsg) : Except FetchErr (Option ReplyEmail) :=
  let urls := parse_message env.links m.msg
  if urls.length = 0 then .ok none
  else
    match (fetch_tickets env.world urls).1 with
    | .error e => .error e
    | .ok tickets =>
      if tickets.length = 0 then .ok none
      else .ok (some {
        subject := "Re: " ++ m.subject,
        toAddr := m.toAddr,
        fromAddr := env.fromAddr,
        date := m.date + 10,
        messageId := "<" ++ EMAIl_ID_STRING ++ "@" ++ env.imapHost ++ ">",
        inReplyTo := m.messageId,
        references := m.messageId,
        attachments := tickets })

/-- The per-message terminal state of the scanner loop. -/
inductive Outcome where
  | fetchFailed
  | tooOld
  | alreadyProcessed
  | noReply
  | appended
  | appendFailed
deriving DecidableEq

/-- One iteration of the `for num in items` loop of `main`: the new ledger,
the outcome, and the appends performed.  Exceptions escaping
`prepare_ticket_email` propagate (there is no `try` in `main`). -/
def stepMsg (env : Env) (completed : List PRecord) (m : SourceMsg) :
    Except FetchErr (List PRecord × Outcome × List AppendRec) :=
  if env.fetchOk m.messageId = false then .ok (completed, .fetchFailed, [])
  else if m.date < env.since then .ok (completed, .tooOld, [])
  else if (check_if_already_processed env.mbox m completed).1 = true then
    .ok (completed ++ [recordOf m], .alreadyProcessed, [])
  else
    match prepare_ticket_email env m with
    | .error e => .error e
    | .ok none => .ok (completed, .noReply, [])
    | .ok (some te) =>
      if env.appendOk then
        .ok (completed ++ [recordOf m], .appended, [{ sourceId := m.messageId, reply := te }])
      else
        .ok (completed, .appendFailed, [])

/-- The whole scan: process the searched messages in order, threading the
ledger; on success return the ledger flushed by `json.dump`, the outcome of
every message, and all appends; an uncaught exception aborts the run (and no
ledger is flushed). -/
def runScan (env : Env) : List SourceMsg → List PRecord →
    Except FetchErr (List PRecord × List (SourceMsg × Outcome) × List AppendRec)
  | [], completed => .ok (completed, [], [])
  | m :: rest, completed =>
    match stepMsg env completed m with
    | .error e => .error e
    | .ok (c', o, a) =>
      match runScan env rest c' with
      | .error e => .error e
      | .ok (cf, os, as) => .ok (cf, (m, o) :: os, a ++ as)

/-! ### Spec-side definition for the Content-Disposition filename parameter

The spec says the produced filename "equals the content-disposition filename
parameter verbatim".  Following the spec's words (header-parameter syntax):
the value after `filename=`, extending to the closing quote when quoted and
to the next `;` (or the end) otherwise. -/

/-- The filename parameter of a `Content-Disposition` header value, read per
the spec's words (not from the source). -/
def specFilenameParam (h : String) : Option String :=
  match (pySplit "filename=" h).get? 1 with
  | none => none
  | some rest =>
    if rest.data.head? = some '"' then
      some (String.mk ((rest.data.drop 1).takeWhile (fun c => c ≠ '"')))
    else
      some (String.mk (rest.data.takeWhile (fun c => c ≠ ';')))

/-! ### Helper lemmas about the decision procedure and one loop iteration -/

/-- Tier 1 of the decision procedure: a ledger hit returns `(true, false)` —
processed, and no mailbox search performed. -/
theorem check_mem (mbox : Mailbox) (m : SourceMsg) (completed : List PRecord)
    (h : m.messageId ∈ completed.map (fun c => c.id)) :
    check_if_already_processed mbox m completed = (true, false) := by
  simp [check_if_already_processed, h]

/-- If the decision procedure returned `false`, the message id was not in the
ledger. -/
theorem check_false_not_mem (mbox : Mailbox) (m : SourceMsg) (completed : List PRecord)
    (h : (check_if_already_processed mbox m completed).1 = false) :
    m.messageId ∉ completed.map (fun c => c.id) := by
  intro hmem
  rw [check_mem mbox m completed hmem] at h
  simp at h

/-- Full inversion of one loop iteration: everything `main`'s loop body can
do, by outcome. -/
theorem stepMsg_inv {env : Env} {c : List PRecord} {m : SourceMsg}
    {c' : List PRecord} {o : Outcome} {a : List AppendRec}
    (h : stepMsg env c m = .ok (c', o, a)) :
    (o = .fetchFailed ∧ c' = c ∧ a = [] ∧ env.fetchOk m.messageId = false) ∨
    (o = .tooOld ∧ c' = c ∧ a = [] ∧ env.fetchOk m.messageId = true ∧ m.date < env.since) ∨
    (o = .alreadyProcessed ∧ c' = c ++ [recordOf m] ∧ a = [] ∧
      env.fetchOk m.messageId = true ∧ ¬ m.date < env.since ∧
      (check_if_already_processed env.mbox m c).1 = true) ∨
    (o = .noReply ∧ c' = c ∧ a = [] ∧
      env.fetchOk m.messageId = true ∧ ¬ m.date < env.since ∧
      (check_if_already_processed env.mbox m c).1 = false ∧
      prepare_ticket_email env m = .ok none) ∨
    (∃ te, o = .appended ∧ c' = c ++ [recordOf m] ∧
      a = [{ sourceId := m.messageId, reply := te }] ∧
      env.fetchOk m.messageId = true ∧ ¬ m.date < env.since ∧
      (check_if_already_processed env.mbox m c).1 = false ∧
      prepare_ticket_email env m = .ok (some te) ∧ env.appendOk = true) ∨
    (∃ te, o = .appendFailed ∧ c' = c ∧ a = [] ∧
      env.fetchOk m.messageId = true ∧ ¬ m.date < env.since ∧
      (check_if_already_processed env.mbox m c).1 = false ∧
      prepare_ticket_email env m = .ok (some te) ∧ env.appendOk = false) := by
  unfold stepMsg at h
  by_cases hf : env.fetchOk m.messageId = false
  · rw [if_pos hf] at h
    simp only [Except.ok.injEq, Prod.mk.injEq] at h
    obtain ⟨hc, ho, ha⟩ := h
    exact Or.inl ⟨ho.symm, hc.symm, ha.symm, hf⟩
  · rw [if_neg hf] at h
    replace hf : env.fetchOk m.messageId = true := by
      cases hfe : env.fetchOk m.messageId
      · exact absurd hfe hf
      · rfl
    by_cases hd : m.date < env.since
    · rw [if_pos hd] at h
      simp only [Except.ok.injEq, Prod.mk.injEq] at h
      obtain ⟨hc, ho, ha⟩ := h
      exact Or.inr (Or.inl ⟨ho.symm, hc.symm, ha.symm, hf, hd⟩)
    · rw [if_neg hd] at h
      by_cases hchk : (check_if_already_processed env.mbox m c).1 = true
      · rw [if_pos hchk] at h
        simp only [Except.ok.injEq, Prod.mk.injEq] at h
        obtain ⟨hc, ho, ha⟩ := h
        exact Or.inr (Or.inr (Or.inl ⟨ho.symm, hc.symm, ha.symm, hf, hd, hchk⟩))
      · rw [if_neg hchk] at h
        replace hchk : (check_if_already_processed env.mbox m c).1 = false := by
          cases hce : (check_if_already_processed env.mbox m c).1
          · rfl
          · exact absurd hce hchk
        split at h
        · exact absurd h (by simp)
        · rename_i hp
          simp only [Except.ok.injEq, Prod.mk.injEq] at h
          obtain ⟨hc, ho, ha⟩ := h
          exact Or.inr (Or.inr (Or.inr (Or.inl ⟨ho.symm, hc.symm, ha.symm, hf, hd, hchk, hp⟩)))
        · rename_i te hp
          by_cases hap : env.appendOk
          · rw [if_pos (by simp [hap] : env.appendOk = true)] at h
            simp only [Except.ok.injEq, Prod.mk.injEq] at h
            obtain ⟨hc, ho, ha⟩ := h
            exact Or.inr (Or.inr (Or.inr (Or.inr (Or.inl
              ⟨te, ho.symm, hc.symm, ha.symm, hf, hd, hchk, hp, by simp [hap]⟩))))
          · rw [if_neg (by simp [hap] : ¬ env.appendOk = true)] at h
            simp only [Except.ok.injEq, Prod.mk.injEq] at h
            obtain ⟨hc, ho, ha⟩ := h
            exact Or.inr (Or.inr (Or.inr (Or.inr (Or.inr
              ⟨te, ho.symm, hc.symm, ha.symm, hf, hd, hchk, hp, by simp [hap]⟩))))

/-- A successfully processed message (`alreadyProcessed` or `appended`) has
its record appended to the ledger, and the guards were passed. -/
theorem stepMsg_recorded {env : Env} {c : List PRecord} {m : SourceMsg}
    {c' : List PRecord} {o : Outcome} {a : List AppendRec}
    (h : stepMsg env c m = .ok (c', o, a))
    (ho : o = .alreadyProcessed ∨ o = .appended) :
    c' = c ++ [recordOf m] ∧ env.fetchOk m.messageId = true ∧ ¬ m.date < env.since := by
  rcases stepMsg_inv h with ⟨h1, -⟩ | ⟨h1, -⟩ | ⟨-, h2, -, h3, h4, -⟩ | ⟨h1, -⟩ |
    ⟨te, -, h2, -, h3, h4, -⟩ | ⟨te, h1, -⟩ <;>
    first
      | exact ⟨h2, h3, h4⟩
      | (subst h1; rcases ho with ho | ho <;> exact absurd ho (by simp))

/-- The ledger after one iteration extends the ledger before it. -/
theorem stepMsg_mono {env : Env} {c : List PRecord} {m : SourceMsg}
    {c' : List PRecord} {o : Outcome} {a : List AppendRec}
    (h : stepMsg env c m = .ok (c', o, a)) {r : PRecord} (hr : r ∈ c) : r ∈ c' := by
  rcases stepMsg_inv h with ⟨-, h2, -⟩ | ⟨-, h2, -⟩ | ⟨-, h2, -⟩ | ⟨-, h2, -⟩ |
    ⟨te, -, h2, -⟩ | ⟨te, -, h2, -⟩ <;> subst h2 <;> simp [hr]

/-- Conversely, a record in the ledger after one iteration was already there,
or is the message's own record added on an `alreadyProcessed` / `appended`
outcome. -/
theorem stepMsg_new {env : Env} {c : List PRecord} {m : SourceMsg}
    {c' : List PRecord} {o : Outcome} {a : List AppendRec}
    (h : stepMsg env c m = .ok (c', o, a)) {r : PRecord} (hr : r ∈ c') :
    r ∈ c ∨ (r = recordOf m ∧ (o = .alreadyProcessed ∨ o = .appended)) := by
  rcases stepMsg_inv h with ⟨ho, h2, -⟩ | ⟨ho, h2, -⟩ | ⟨ho, h2, -⟩ | ⟨ho, h2, -⟩ |
    ⟨te, ho, h2, -⟩ | ⟨te, ho, h2, -⟩ <;> subst h2 <;> subst ho <;>
    first
      | exact Or.inl hr
      | (rcases List.mem_append.mp hr with h' | h'
         · exact Or.inl h'
         · exact Or.inr ⟨List.mem_singleton.mp h', by simp⟩)

/-- Every append performed in one iteration is for the message itself. -/
theorem stepMsg_appends {env : Env} {c : List PRecord} {m : SourceMsg}
    {c' : List PRecord} {o : Outcome} {a : List AppendRec}
    (h : stepMsg env c m = .ok (c', o, a)) {x : AppendRec} (hx : x ∈ a) :
    x.sourceId = m.messageId ∧ o = .appended := by
  rcases stepMsg_inv h with ⟨ho, -, h3, -⟩ | ⟨ho, -, h3, -⟩ | ⟨ho, -, h3, -⟩ | ⟨ho, -, h3, -⟩ |
    ⟨te, ho, -, h3, -⟩ | ⟨te, ho, -, h3, -⟩ <;> subst h3 <;>
    first
      | exact absurd hx (List.not_mem_nil x)
      | exact ⟨by rw [List.mem_singleton.mp hx], ho⟩

/-- Tier-1 short-circuit at loop level: a message whose id is already in the
ledger performs no append and, when it reaches the decision procedure at all,
ends in `alreadyProcessed`. -/
theorem stepMsg_mem_ledger {env : Env} {c : List PRecord} {m : SourceMsg}
    {c' : List PRecord} {o : Outcome} {a : List AppendRec}
    (h : stepMsg env c m = .ok (c', o, a))
    (hmem : m.messageId ∈ c.map (fun r => r.id)) :
    a = [] ∧ (o = .fetchFailed ∨ o = .tooOld ∨ o = .alreadyProcessed) ∧
      (env.fetchOk m.messageId = true → ¬ m.date < env.since → o = .alreadyProcessed) := by
  have hchk : (check_if_already_processed env.mbox m c).1 = true := by
    rw [check_mem env.mbox m c hmem]
  rcases stepMsg_inv h with ⟨ho, -, h3, h4⟩ | ⟨ho, -, h3, -, h5⟩ | ⟨ho, -, h3, -⟩ |
    ⟨-, -, -, -, -, h6, -⟩ | ⟨te, -, -, -, -, -, h6, -⟩ | ⟨te, -, -, -, -, -, h6, -⟩
  · exact ⟨h3, Or.inl ho, fun hf _ => absurd h4 (by simp [hf])⟩
  · exact ⟨h3, Or.inr (Or.inl ho), fun _ hd => absurd h5 hd⟩
  · exact ⟨h3, Or.inr (Or.inr ho), fun _ _ => ho⟩
  · exact absurd hchk (by simp [h6])
  · exact absurd hchk (by simp [h6])
  · exact absurd hchk (by simp [h6])

/-- An `appendFailed` message was not in the ledger when it was processed. -/
theorem stepMsg_appendFailed_not_mem {env : Env} {c : List PRecord} {m : SourceMsg}
    {c' : List PRecord} {a : List AppendRec}
    (h : stepMsg env c m = .ok (c', .appendFailed, a)) :
    m.messageId ∉ c.map (fun r => r.id) := by
  rcases stepMsg_inv h with ⟨ho, -⟩ | ⟨ho, -⟩ | ⟨ho, -⟩ | ⟨ho, -⟩ |
    ⟨te, ho, -⟩ | ⟨te, -, -, -, -, -, h6, -⟩
  · exact absurd ho (by simp)
  · exact absurd ho (by simp)
  · exact absurd ho (by simp)
  · exact absurd ho (by simp)
  · exact absurd ho (by simp)
  · exact check_false_not_mem env.mbox m c h6

/-! ### Lemmas about the whole scan -/

/-- The outcome list pairs exactly the scanned messages, in order. -/
theorem runScan_fst {env : Env} {msgs : List SourceMsg} {c0 cf : List PRecord}
    {os : List (SourceMsg × Outcome)} {as : List AppendRec}
    (h : runScan env msgs c0 = .ok (cf, os, as)) :
    os.map Prod.fst = msgs := by
  induction msgs generalizing c0 os as with
  | nil =>
    simp only [runScan, Except.ok.injEq, Prod.mk.injEq] at h
    obtain ⟨-, h2, -⟩ := h
    simp [← h2]
  | cons m rest ih =>
    simp only [runScan] at h
    split at h
    · exact absurd h (by simp)
    · rename_i c' o a hstep
      split at h
      · exact absurd h (by simp)
      · rename_i cf' os' as' hrest
        simp only [Except.ok.injEq, Prod.mk.injEq] at h
        obtain ⟨h1, h2, h3⟩ := h
        subst h1
        rw [← h2]
        simpa using ih hrest

/-- The initial ledger survives the whole scan. -/
theorem runScan_mono {env : Env} {msgs : List SourceMsg} {c0 cf : List PRecord}
    {os : List (SourceMsg × Outcome)} {as : List AppendRec}
    (h : runScan env msgs c0 = .ok (cf, os, as)) {r : PRecord} (hr : r ∈ c0) : r ∈ cf := by
  induction msgs generalizing c0 os as with
  | nil =>
    simp only [runScan, Except.ok.injEq, Prod.mk.injEq] at h
    obtain ⟨h1, -⟩ := h
    exact h1 ▸ hr
  | cons m rest ih =>
    simp only [runScan] at h
    split at h
    · exact absurd h (by simp)
    · rename_i c' o a hstep
      split at h
      · exact absurd h (by simp)
      · rename_i cf' os' as' hrest
        simp only [Except.ok.injEq, Prod.mk.injEq] at h
        obtain ⟨h1, -⟩ := h
        subst h1
        exact ih hrest (stepMsg_mono hstep hr)

/-- Every outcome of the scan comes from an actual iteration, over a ledger
extending the initial one, and whose post-ledger survives into the flushed
one. -/
theorem runScan_step_of_mem {env : Env} {msgs : List SourceMsg} {c0 cf : List PRecord}
    {os : List (SourceMsg × Outcome)} {as : List AppendRec}
    (h : runScan env msgs c0 = .ok (cf, os, as)) {m : SourceMsg} {o : Outcome}
    (hm : (m, o) ∈ os) :
    ∃ c c' a, stepMsg env c m = .ok (c', o, a) ∧
      (∀ r ∈ c0, r ∈ c) ∧ (∀ r ∈ c', r ∈ cf) := by
  induction msgs generalizing c0 os as with
  | nil =>
    simp only [runScan, Except.ok.injEq, Prod.mk.injEq] at h
    obtain ⟨-, h2, -⟩ := h
    rw [← h2] at hm
    exact absurd hm (List.not_mem_nil _)
  | cons m' rest ih =>
    simp only [runScan] at h
    split at h
    · exact absurd h (by simp)
    · rename_i c' o' a hstep
      split at h
      · exact absurd h (by simp)
      · rename_i cf' os' as' hrest
        simp only [Except.ok.injEq, Prod.mk.injEq] at h
        obtain ⟨h1, h2, -⟩ := h
        subst h1
        rw [← h2] at hm
        rcases List.mem_cons.mp hm with hm' | hm'
        · have hma : m = m' := congrArg Prod.fst hm'
          have hmb : o = o' := congrArg Prod.snd hm'
          subst hma; subst hmb
          exact ⟨c0, c', a, hstep, fun r hr => hr, fun r hr => runScan_mono hrest hr⟩
        · obtain ⟨c₁, c₁', a₁, hs, hlo, hhi⟩ := ih hrest hm'
          exact ⟨c₁, c₁', a₁, hs, fun r hr => hlo r (stepMsg_mono hstep hr), hhi⟩

/-- A record of the flushed ledger was in the initial ledger or belongs to a
message that ended in `alreadyProcessed` or `appended`. -/
theorem runScan_new {env : Env} {msgs : List SourceMsg} {c0 cf : List PRecord}
    {os : List (SourceMsg × Outcome)} {as : List AppendRec}
    (h : runScan env msgs c0 = .ok (cf, os, as)) {r : PRecord} (hr : r ∈ cf) :
    r ∈ c0 ∨ ∃ m o, (m, o) ∈ os ∧ r = recordOf m ∧
      (o = .alreadyProcessed ∨ o = .appended) := by
  induction msgs generalizing c0 os as with
  | nil =>
    simp only [runScan, Except.ok.injEq, Prod.mk.injEq] at h
    obtain ⟨h1, -⟩ := h
    exact Or.inl (h1 ▸ hr)
  | cons m' rest ih =>
    simp only [runScan] at h
    split at h
    · exact absurd h (by simp)
    · rename_i c' o' a hstep
      split at h
      · exact absurd h (by simp)
      · rename_i cf' os' as' hrest
        simp only [Except.ok.injEq, Prod.mk.injEq] at h
        obtain ⟨h1, h2, -⟩ := h
        subst h1
        rcases ih hrest with h' | ⟨m₁, o₁, hmem, hrec, ho₁⟩
        · rcases stepMsg_new hstep h' with h'' | ⟨hrec, ho⟩
          · exact Or.inl h''
          · exact Or.inr ⟨m', o', by simp [← h2], hrec, ho⟩
        · exact Or.inr ⟨m₁, o₁, by simp [← h2, hmem], hrec, ho₁⟩

/-- A message id present in the starting ledger is never appended for during
the scan, and every occurrence of that id among the scanned messages ends in
`fetchFailed`, `tooOld` or `alreadyProcessed` (the latter whenever the
fetch succeeded and the message was within the age window). -/
theorem runScan_mem_no_append {env : Env} {msgs : List SourceMsg} {c0 cf : List PRecord}
    {os : List (SourceMsg × Outcome)} {as : List AppendRec} {mid : String}
    (h : runScan env msgs c0 = .ok (cf, os, as))
    (hid : mid ∈ c0.map (fun r => r.id)) :
    (∀ x ∈ as, x.sourceId ≠ mid) ∧
    (∀ m o, (m, o) ∈ os → m.messageId = mid →
      (o = .fetchFailed ∨ o = .tooOld ∨ o = .alreadyProcessed) ∧
      (env.fetchOk m.messageId = true → ¬ m.date < env.since → o = .alreadyProcessed)) := by
  induction msgs generalizing c0 os as with
  | nil =>
    simp only [runScan, Except.ok.injEq, Prod.mk.injEq] at h
    obtain ⟨-, h2, h3⟩ := h
    constructor
    · intro x hx
      rw [← h3] at hx
      exact absurd hx (List.not_mem_nil x)
    · intro m o hm
      rw [← h2] at hm
      exact absurd hm (List.not_mem_nil _)
  | cons m' rest ih =>
    simp only [runScan] at h
    split at h
    · exact absurd h (by simp)
    · rename_i c' o' a hstep
      split at h
      · exact absurd h (by simp)
      · rename_i cf' os' as' hrest
        simp only [Except.ok.injEq, Prod.mk.injEq] at h
        obtain ⟨h1, h2, h3⟩ := h
        subst h1
        obtain ⟨r, hrmem, hrid⟩ := List.mem_map.mp hid
        have hid' : mid ∈ c'.map (fun r => r.id) :=
          List.mem_map.mpr ⟨r, stepMsg_mono hstep hrmem, hrid⟩
        obtain ⟨iha, ihb⟩ := ih hrest hid'
        constructor
        · intro x hx
          rw [← h3] at hx
          rcases List.mem_append.mp hx with hx' | hx'
          · obtain ⟨hxs, hxo⟩ := stepMsg_appends hstep hx'
            intro hcon
            have hm'id : m'.messageId = mid := by rw [← hxs, hcon]
            obtain ⟨-, hout, -⟩ := stepMsg_mem_ledger hstep (by rw [hm'id]; exact hid)
            rcases hout with h' | h' | h' <;> rw [hxo] at h' <;> exact absurd h' (by simp)
          · exact iha x hx'
        · intro m o hm hmid
          rw [← h2] at hm
          rcases List.mem_cons.mp hm with hm' | hm'
          · have hma : m = m' := congrArg Prod.fst hm'
            have hmb : o = o' := congrArg Prod.snd hm'
            subst hma; subst hmb
            obtain ⟨-, hout, hgo⟩ :=
              stepMsg_mem_ledger hstep (by rw [hmid]; exact hid)
            exact ⟨hout, hgo⟩
          · exact ihb m o hm' hmid

/-- Splitting a scan: once a prefix has been processed, the rest of the scan
runs on the prefix's final ledger, and an error in the rest aborts the whole
run. -/
theorem runScan_concat {env : Env} {pre : List SourceMsg} (rest : List SourceMsg)
    {c0 c1 : List PRecord} {os1 : List (SourceMsg × Outcome)} {as1 : List AppendRec}
    (h : runScan env pre c0 = .ok (c1, os1, as1)) :
    runScan env (pre ++ rest) c0 =
      match runScan env rest c1 with
      | .error e => .error e
      | .ok (cf, os, as) => .ok (cf, os1 ++ os, as1 ++ as) := by
  induction pre generalizing c0 os1 as1 with
  | nil =>
    simp only [runScan, Except.ok.injEq, Prod.mk.injEq] at h
    obtain ⟨h1, h2, h3⟩ := h
    subst h1
    rw [← h2, ← h3]
    simp only [List.nil_append]
    rcases hx : runScan env rest c0 with e | ⟨cf, os, as⟩ <;> simp [hx]
  | cons m' pre' ih =>
    simp only [runScan] at h
    split at h
    · exact absurd h (by simp)
    · rename_i c' o' a hstep
      split at h
      · exact absurd h (by simp)
      · rename_i cf' os' as' hrest
        simp only [Except.ok.injEq, Prod.mk.injEq] at h
        obtain ⟨h1, h2, h3⟩ := h
        subst h1
        simp only [List.cons_append, runScan, hstep, List.append_eq]
        rw [ih hrest]
        rcases hx : runScan env rest cf' with e | ⟨cf, os, as⟩ <;>
          simp [hx, ← h2, ← h3, List.append_assoc]

/-! ### Lemmas about the resolver -/

/-- Rebuilding a string from its own character data is the identity. -/
theorem strMk_data (s : String) : String.mk s.data = s := rfl

/-- If every URL resolves to "no ticket", the loop returns its accumulator. -/
theorem fetchLoop_all_none {w : World} {urls : List String}
    (h : ∀ url ∈ urls, (fetchOne w url).1 = .ok none) (ts : List Ticket)
    (rs : List HttpRequest) :
    (fetchLoop w urls ts rs).1 = .ok ts := by
  induction urls generalizing rs with
  | nil => rfl
  | cons url rest ih =>
    have hu := h url (List.mem_cons_self url rest)
    rcases hx : fetchOne w url with ⟨res, r⟩
    rw [hx] at hu
    simp only at hu
    subst hu
    simp only [fetchLoop, hx, Option.toList_none, List.append_nil]
    exact ih (fun u hu' => h u (List.mem_cons_of_mem url hu')) (rs ++ r.toList)

/-- If every URL resolves to "no ticket", `fetch_tickets` returns no
tickets (and raises nothing). -/
theorem fetch_tickets_all_none {w : World} {urls : List String}
    (h : ∀ url ∈ urls, (fetchOne w url).1 = .ok none) :
    (fetch_tickets w urls).1 = .ok [] :=
  fetchLoop_all_none h [] []

/-- A separator character not occurring in the input never splits it. -/
theorem pySplitAux_no_sep {c : Char} {l : List Char} (fuel : Nat) (acc : List Char)
    (h : c ∉ l) : pySplitAux [c] fuel l acc = [acc.reverse ++ l] := by
  induction fuel generalizing l acc with
  | zero => cases l <;> simp [pySplitAux]
  | succ fuel ih =>
    cases l with
    | nil => simp [pySplitAux]
    | cons c' rest =>
      have hne : c ≠ c' := by
        intro hc; subst hc; exact h (List.mem_cons_self c rest)
      have hp : ([c].isPrefixOf (c' :: rest)) = false := by
        simp [List.isPrefixOf, hne]
      have hrest : c ∉ rest := fun hr => h (List.mem_cons_of_mem c' hr)
      simp only [pySplitAux, hp, Bool.false_eq_true, if_false]
      rw [ih (c' :: acc) hrest]
      simp [List.append_assoc]

/-- Python's `url.split("#")` on a URL with no `#` is the singleton list. -/
theorem pySplit_no_hash {url : String} (h : '#' ∉ url.data) : pySplit "#" url = [url] := by
  unfold pySplit
  have hd : "#".data = ['#'] := rfl
  rw [hd, pySplitAux_no_sep _ _ h]
  simp [strMk_data]

/-- When the landing page loads, its first non-null script block carries a
request ID and the URL has a fragment, `fetchOne` proceeds to the second
GET; this lemma names that request and characterises the result. -/
theorem fetchOne_second {w : World} {url : String} {st : Nat} {js : List (Option String)}
    {j : String} {rest : List String} {rid frag : String}
    (hl : w.landing url = (st, js)) (hst : ¬ 400 ≤ st)
    (hjs : js.filterMap id = j :: rest) (hrid : findReqId j = some rid)
    (hfrag : (pySplit "#" url).get? 1 = some frag) :
    fetchOne w url =
      (let resp := w.resource ("https://download.thetrainline.com/resource/" ++ rid)
          [("token-" ++ rid, frag)]
       let req : HttpRequest :=
         { url := "https://download.thetrainline.com/resource/" ++ rid,
           cookies := [("token-" ++ rid, frag)] }
       if 400 ≤ resp.status then (.error (.httpError resp.status), some req)
       else if resp.contentType ≠ "application/pdf" then (.ok none, some req)
       else
         match (pySplit "filename=" resp.contentDisposition).get? 1 with
         | none => (.error .indexError, some req)
         | some fn =>
           (.ok (some { filename := fn, payload := resp.body,
                        disposition := resp.contentDisposition }), some req)) := by
  simp only [fetchOne, hl, if_neg hst, hjs, List.head?_cons, hrid, hfrag]

/-! ### Claim C5 -/

/-- C5: for every source email whose Message-ID is already present in the
loaded ledger, the decision procedure returns "processed" (`true`) without
performing any mailbox search or fetch (the second component `false` records
that no search happened): tier 1 short-circuits tier 2. -/
theorem C5_ledger_hit_short_circuits (mbox : Mailbox) (m : SourceMsg)
    (completed : List PRecord)
    (h : m.messageId ∈ completed.map (fun c => c.id)) :
    check_if_already_processed mbox m completed = (true, false) :=
  check_mem mbox m completed h

/-- Witness for C5 at a concrete ledger containing the message's id. -/
theorem C5_ledger_hit_short_circuits_witness :
    check_if_already_processed { msgs := [], searchOk := true }
      { messageId := "<w5>", subject := "Your eticket", date := 3,
        toAddr := "a@b", msg := .single { contentType := "text/plain", body := "" } }
      [{ id := "<w5>", date := 3, subject := "Your eticket" }] = (true, false) :=
  C5_ledger_hit_short_circuits _ _ _ (by decide)

/-! ### Claim C10 -/

/-- C10: a candidate URL matching the ticket-download host substring but
containing no `#` makes the resolver raise an uncaught `IndexError` at the
fragment-extraction step `url.split("#")[1]` (rather than returning "no
ticket"), provided resolution reaches that step: the landing page loaded and
its first non-null script block carried the request-ID pattern.  Absence of a
fragment is an unstated precondition of resolution. -/
theorem C10_no_fragment_raises {w : World} {url : String} {st : Nat}
    {js : List (Option String)} {j : String} {rest : List String} {rid : String}
    (_hhost : strContains url "download.thetrainline.com" = true)
    (hnohash : '#' ∉ url.data)
    (hl : w.landing url = (st, js)) (hst : ¬ 400 ≤ st)
    (hjs : js.filterMap id = j :: rest) (hrid : findReqId j = some rid) :
    (fetchOne w url).1 = .error .indexError := by
  have hsplit : (pySplit "#" url).get? 1 = none := by
    rw [pySplit_no_hash hnohash]; rfl
  simp only [fetchOne, hl, if_neg hst, hjs, List.head?_cons, hrid, hsplit]

/-- A landing world whose page carries the request-ID pattern. -/
def wRid : World :=
  { landing := fun _ => (200, [some "var requestId = 'abc';"]),
    resource := fun _ _ => { status := 200, contentType := "application/pdf",
                             contentDisposition := "attachment; filename=t.pdf",
                             body := "PDF" } }

/-- Witness for C10 at a fragment-less URL on the download host. -/
theorem C10_no_fragment_raises_witness :
    (fetchOne wRid "https://download.thetrainline.com/ticket").1 = .error .indexError :=
  C10_no_fragment_raises (by decide) (by decide) rfl (by decide) rfl rfl

/-! ### Claim C6 -/

/-- C6: when the first non-null script block of the landing page carries
`var requestId = '<rid>';` and the URL has a fragment, the second GET issued
by the resolver targets the fixed resource endpoint parameterised by the
request ID and carries the session cookie `token-<rid>` set to the fragment
value. -/
theorem C6_cookie_and_endpoint {w : World} {url : String} {st : Nat}
    {js : List (Option String)} {j : String} {rest : List String} {rid frag : String}
    (hl : w.landing url = (st, js)) (hst : ¬ 400 ≤ st)
    (hjs : js.filterMap id = j :: rest) (hrid : findReqId j = some rid)
    (hfrag : (pySplit "#" url).get? 1 = some frag) :
    (fetchOne w url).2 =
      some { url := "https://download.thetrainline.com/resource/" ++ rid,
             cookies := [("token-" ++ rid, frag)] } := by
  rw [fetchOne_second hl hst hjs hrid hfrag]
  dsimp only
  split
  · rfl
  · split
    · rfl
    · split
      · rfl
      · rfl

/-- Witness for C6: request ID `abc123`, fragment `tok456`. -/
theorem C6_cookie_and_endpoint_witness :
    (fetchOne
      { landing := fun _ => (200, [some "var requestId = 'abc123';"]),
        resource := fun _ _ => { status := 200, contentType := "application/pdf",
                                 contentDisposition := "attachment; filename=t.pdf",
                                 body := "PDF" } }
      "https://download.thetrainline.com/ticket#tok456").2 =
      some { url := "https://download.thetrainline.com/resource/" ++ "abc123",
             cookies := [("token-" ++ "abc123", "tok456")] } :=
  C6_cookie_and_endpoint rfl (by decide) rfl rfl rfl

/-! ### Claim C4 -/

/-- A world whose landing page has no script blocks at all. -/
def wNoScripts : World :=
  { landing := fun _ => (200, []),
    resource := fun _ _ => { status := 200, contentType := "application/pdf",
                             contentDisposition := "attachment; filename=t.pdf",
                             body := "PDF" } }

/-- Counterexample to C4: on a landing page with no script blocks with
non-empty inline content, the resolver raises `IndexError` (from
`all_js[0]`) instead of returning "no ticket" without raising. -/
theorem C4_counterexample :
    (fetchOne wNoScripts "https://download.thetrainline.com/x#t").1 = .error .indexError ∧
    (fetchOne wNoScripts "https://download.thetrainline.com/x#t").1 ≠ .ok none := by
  refine ⟨rfl, fun h => ?_⟩
  have h2 : (Except.error FetchErr.indexError : Except FetchErr (Option Ticket)) = .ok none := h
  exact Except.noConfusion h2

/-- C4 as amended: when the landing page loads, (a) if it has NO script
blocks with non-null inline content the resolver raises an uncaught
`IndexError` (it does not return "no ticket"); (b) if the pattern is absent
from the FIRST such block the resolver returns "no ticket" without raising —
and later blocks (`rest`, arbitrary here) are never inspected. -/
theorem C4_amended {w : World} {url : String} {st : Nat} {js : List (Option String)}
    (hl : w.landing url = (st, js)) (hst : ¬ 400 ≤ st) :
    (js.filterMap id = [] → fetchOne w url = (.error .indexError, none)) ∧
    (∀ j rest, js.filterMap id = j :: rest → findReqId j = none →
      fetchOne w url = (.ok none, none)) := by
  constructor
  · intro hjs
    simp only [fetchOne, hl, if_neg hst, hjs, List.head?_nil]
  · intro j rest hjs hrid
    simp only [fetchOne, hl, if_neg hst, hjs, List.head?_cons, hrid]

/-- Witness for C4 (amended), part (b): a first script block without the
pattern yields "no ticket" without an exception. -/
theorem C4_amended_witness :
    fetchOne
      { landing := fun _ => (200, [some "window.alert(1);"]),
        resource := fun _ _ => { status := 200, contentType := "application/pdf",
                                 contentDisposition := "attachment; filename=t.pdf",
                                 body := "PDF" } }
      "https://download.thetrainline.com/x#t" = (.ok none, none) :=
  (C4_amended rfl (by decide)).2 "window.alert(1);" [] rfl rfl

/-! ### Claim C9 -/

/-- A world whose second response's Content-Disposition has a parameter
after `filename`. -/
def wTrailingParam : World :=
  { landing := fun _ => (200, [some "var requestId = 'abc';"]),
    resource := fun _ _ => { status := 200, contentType := "application/pdf",
                             contentDisposition := "attachment; filename=a.pdf; size=3",
                             body := "PDFBYTES" } }

/-- Counterexample to C9: the code takes everything after `filename=`, so
with header `attachment; filename=a.pdf; size=3` the produced filename is
`a.pdf; size=3`, not the filename parameter `a.pdf`. -/
theorem C9_counterexample :
    (fetchOne wTrailingParam "https://download.thetrainline.com/x#tok").1 =
      .ok (some { filename := "a.pdf; size=3", payload := "PDFBYTES",
                  disposition := "attachment; filename=a.pdf; size=3" }) ∧
    specFilenameParam "attachment; filename=a.pdf; size=3" = some "a.pdf" ∧
    ("a.pdf; size=3" : String) ≠ "a.pdf" := by
  refine ⟨rfl, rfl, by decide⟩

/-- C9 as amended: the produced filename is, verbatim, the entire substring
of the Content-Disposition header after its first `filename=`; this
coincides with the filename parameter exactly when that parameter is
unquoted and last (its value contains no `;`). -/
theorem C9_amended {w : World} {url : String} {st : Nat} {js : List (Option String)}
    {j : String} {rest : List String} {rid frag : String} {resp : SecondResp} {v : String}
    (hl : w.landing url = (st, js)) (hst : ¬ 400 ≤ st)
    (hjs : js.filterMap id = j :: rest) (hrid : findReqId j = some rid)
    (hfrag : (pySplit "#" url).get? 1 = some frag)
    (hresp : w.resource ("https://download.thetrainline.com/resource/" ++ rid)
        [("token-" ++ rid, frag)] = resp)
    (hrs : ¬ 400 ≤ resp.status) (hct : resp.contentType = "application/pdf")
    (hv : (pySplit "filename=" resp.contentDisposition).get? 1 = some v)
    (hq : v.data.head? ≠ some '"') (hs : ';' ∉ v.data) :
    (fetchOne w url).1 = .ok (some { filename := v, payload := resp.body,
                                     disposition := resp.contentDisposition }) ∧
    specFilenameParam resp.contentDisposition = some v := by
  constructor
  · rw [fetchOne_second hl hst hjs hrid hfrag]
    dsimp only
    rw [hresp, if_neg hrs, if_neg (by simp [hct]), hv]
  · unfold specFilenameParam
    rw [hv]
    dsimp only
    rw [if_neg hq]
    have ht : v.data.takeWhile (fun c => c ≠ ';') = v.data :=
      List.takeWhile_eq_self_iff.mpr (fun c hc => by
        simp only [ne_eq, decide_eq_true_eq]
        intro hcs
        exact hs (hcs ▸ hc))
    rw [ht, strMk_data]

/-- A world whose second response's Content-Disposition ends with an
unquoted filename parameter. -/
def wPlainFilename : World :=
  { landing := fun _ => (200, [some "var requestId = 'abc';"]),
    resource := fun _ _ => { status := 200, contentType := "application/pdf",
                             contentDisposition := "attachment; filename=t.pdf",
                             body := "PDFBYTES" } }

/-- Witness for C9 (amended) at an unquoted, last filename parameter. -/
theorem C9_amended_witness :
    (fetchOne wPlainFilename "https://download.thetrainline.com/x#tok").1 =
      .ok (some { filename := "t.pdf", payload := "PDFBYTES",
                  disposition := "attachment; filename=t.pdf" }) ∧
    specFilenameParam "attachment; filename=t.pdf" = some "t.pdf" :=
  @C9_amended wPlainFilename "https://download.thetrainline.com/x#tok" 200
    [some "var requestId = 'abc';"] "var requestId = 'abc';" [] "abc" "tok"
    { status := 200, contentType := "application/pdf",
      contentDisposition := "attachment; filename=t.pdf", body := "PDFBYTES" } "t.pdf"
    rfl (by decide) rfl rfl rfl rfl (by decide) rfl rfl (by decide) (by decide)

/-! ### Claim C8 -/

/-- C8: a fetched message (fetch OK, within the window, not already
processed) that yields zero candidate URLs, or whose every candidate URL
resolves to "no ticket", produces no reply (`noReply`), no append, and
leaves the ledger unchanged. -/
theorem C8_no_tickets_frame {env : Env} {c : List PRecord} {m : SourceMsg}
    (hf : env.fetchOk m.messageId = true)
    (hd : ¬ m.date < env.since)
    (hc : (check_if_already_processed env.mbox m c).1 = false)
    (hu : parse_message env.links m.msg = [] ∨
      ∀ url ∈ parse_message env.links m.msg, (fetchOne env.world url).1 = .ok none) :
    stepMsg env c m = .ok (c, .noReply, []) := by
  have hprep : prepare_ticket_email env m = .ok none := by
    simp only [prepare_ticket_email]
    rcases hu with hu | hu
    · rw [hu]
      rfl
    · by_cases hlen : (parse_message env.links m.msg).length = 0
      · rw [if_pos hlen]
      · rw [if_neg hlen]
        have hft : (fetch_tickets env.world (parse_message env.links m.msg)).1 = .ok [] :=
          fetch_tickets_all_none hu
        rw [hft]
        rfl
  unfold stepMsg
  rw [if_neg (by simp [hf]), if_neg hd, if_neg (by simp [hc]), hprep]

/-- An environment whose messages carry no candidate URLs (plain-text
e-mail). -/
def envNoUrls : Env :=
  { mbox := { msgs := [], searchOk := true },
    links := fun _ => [],
    world := wPlainFilename,
    appendOk := true, fetchOk := fun _ => true, since := 0,
    fromAddr := "from@example.com", imapHost := "imap.example.com" }

/-- The concrete message used by the C8 witness. -/
def mNoUrls : SourceMsg :=
  { messageId := "<w8>", subject := "Your eticket", date := 4, toAddr := "a@b",
    msg := .single { contentType := "text/plain", body := "hello" } }

/-- Witness for C8 at a message with no HTML part (hence no URLs). -/
theorem C8_no_tickets_frame_witness :
    stepMsg envNoUrls [] mNoUrls = .ok ([], .noReply, []) :=
  C8_no_tickets_frame rfl (by decide) rfl (Or.inl rfl)

/-! ### Claim C7 -/

/-- The reassigning loop of `parse_message` keeps the body of the LAST
`text/html` part. -/
theorem pickFold (parts : List MimePart) (acc : Option String) :
    parts.foldl (fun a p => if p.contentType = "text/html" then some p.body else a) acc =
      match (parts.filter (fun q => q.contentType = "text/html")).getLast? with
      | some q => some q.body
      | none => acc := by
  induction parts generalizing acc with
  | nil => rfl
  | cons q rest ih =>
    rw [List.foldl_cons, ih, List.filter_cons]
    by_cases hq : q.contentType = "text/html"
    · rw [if_pos (show decide (q.contentType = "text/html") = true by simp [hq])]
      cases hfe : rest.filter (fun q => q.contentType = "text/html") with
      | nil => simp [hq]
      | cons x xs =>
        rw [List.getLast?_cons_cons]
        cases hgl : (x :: xs).getLast? with
        | none => exact absurd (List.getLast?_eq_none_iff.mp hgl) (by simp)
        | some q' => rfl
    · rw [if_neg (show ¬ decide (q.contentType = "text/html") = true by simp [hq])]
      cases hgl : (rest.filter (fun q => q.contentType = "text/html")).getLast? with
      | none => simp [hq]
      | some q' => rfl

/-- A link lister distinguishing the two HTML bodies. -/
def linksTwoParts : String → List String := fun h =>
  if h = "H1" then ["https://download.thetrainline.com/a#1"]
  else ["https://download.thetrainline.com/b#2"]

/-- A multipart message with two `text/html` parts. -/
def msgTwoHtml : EmailMsg :=
  .multipart [{ contentType := "text/html", body := "H1" },
              { contentType := "text/html", body := "H2" }]

/-- Counterexample to C7: with two `text/html` parts, `parse_message`
returns the URLs of the LAST part, not those of the first. -/
theorem C7_counterexample :
    parse_message linksTwoParts msgTwoHtml = ["https://download.thetrainline.com/b#2"] ∧
    parse_message linksTwoParts msgTwoHtml ≠ ["https://download.thetrainline.com/a#1"] := by
  refine ⟨rfl, by decide⟩

/-- C7 as amended: for a multipart message, the Link Extractor uses the LAST
`text/html` part (the loop reassigns on every HTML part), provided its
decoded body is non-empty, and returns its links filtered to the
ticket-download host. -/
theorem C7_amended (links : String → List String) (parts : List MimePart) (p : MimePart)
    (hl : (parts.filter (fun q => q.contentType = "text/html")).getLast? = some p)
    (hb : p.body ≠ "") :
    parse_message links (.multipart parts) =
      (links p.body).filter (fun u => strContains u "download.thetrainline.com") := by
  unfold parse_message htmlOfMessage
  dsimp only
  rw [pickFold, hl]
  dsimp only
  rw [if_neg hb]

/-- Witness for C7 (amended) on the two-HTML-part message. -/
theorem C7_amended_witness :
    parse_message linksTwoParts msgTwoHtml =
      (linksTwoParts "H2").filter (fun u => strContains u "download.thetrainline.com") :=
  C7_amended linksTwoParts
    [{ contentType := "text/html", body := "H1" },
     { contentType := "text/html", body := "H2" }]
    { contentType := "text/html", body := "H2" } (by decide) (by decide)

/-! ### Claim C2 -/

/-- A world whose landing GET returns HTTP 404. -/
def wNotFound : World :=
  { landing := fun _ => (404, []),
    resource := fun _ _ => { status := 200, contentType := "application/pdf",
                             contentDisposition := "attachment; filename=t.pdf",
                             body := "PDF" } }

/-- An environment in which every message links to the unreachable URL. -/
def envNotFound : Env :=
  { mbox := { msgs := [], searchOk := true },
    links := fun _ => ["https://download.thetrainline.com/h#tok"],
    world := wNotFound,
    appendOk := true, fetchOk := fun _ => true, since := 0,
    fromAddr := "from@example.com", imapHost := "imap.example.com" }

/-- First candidate message of the C2 counterexample run. -/
def mHttpA : SourceMsg :=
  { messageId := "<a>", subject := "Your eticket", date := 5, toAddr := "a@b",
    msg := .multipart [{ contentType := "text/html", body := "H" }] }

/-- Second candidate message of the C2 counterexample run. -/
def mHttpB : SourceMsg :=
  { messageId := "<b>", subject := "Your eticket 2", date := 5, toAddr := "a@b",
    msg := .multipart [{ contentType := "text/html", body := "H" }] }

/-- Counterexample to C2: a non-2xx landing status (here 404) is NOT caught
at message granularity — the whole run aborts with the uncaught HTTPError
(the second message is never processed and no ledger is flushed), instead of
logging and continuing the scan. -/
theorem C2_counterexample :
    runScan envNotFound [mHttpA, mHttpB] [] = .error (.httpError 404) := rfl

/-- C2 as amended: a non-2xx HTTP status in the resolver raises an
`HTTPError` that no orchestrator code catches: if a message whose
`fetch_tickets` call raises is reached (guards passed, not already
processed), the exception propagates and the WHOLE run aborts with it,
regardless of how many candidate messages remain. -/
theorem C2_amended {env : Env} {pre : List SourceMsg} (post : List SourceMsg)
    {c0 c1 : List PRecord} {os1 : List (SourceMsg × Outcome)} {as1 : List AppendRec}
    {m : SourceMsg} {e : FetchErr}
    (hpre : runScan env pre c0 = .ok (c1, os1, as1))
    (hf : env.fetchOk m.messageId = true)
    (hd : ¬ m.date < env.since)
    (hc : (check_if_already_processed env.mbox m c1).1 = false)
    (he : (fetch_tickets env.world (parse_message env.links m.msg)).1 = .error e) :
    runScan env (pre ++ m :: post) c0 = .error e := by
  have hprep : prepare_ticket_email env m = .error e := by
    simp only [prepare_ticket_email]
    by_cases hlen : (parse_message env.links m.msg).length = 0
    · exfalso
      rw [List.length_eq_zero.mp hlen] at he
      simp [fetch_tickets, fetchLoop] at he
    · rw [if_neg hlen, he]
  have hstep : stepMsg env c1 m = .error e := by
    unfold stepMsg
    rw [if_neg (by simp [hf]), if_neg hd, if_neg (by simp [hc]), hprep]
  rw [runScan_concat (m :: post) hpre]
  have habort : runScan env (m :: post) c1 = .error e := by
    simp only [runScan, hstep]
  rw [habort]

/-- Witness for C2 (amended): the singleton run over the 404 world aborts. -/
theorem C2_amended_witness :
    runScan envNotFound ([] ++ mHttpA :: []) [] = .error (.httpError 404) :=
  C2_amended [] rfl rfl (by decide) rfl rfl

/-! ### Claim C3 -/

/-- C3: a message whose reply append failed (`appendFailed`) gets no ledger
record, so — as long as no other scanned occurrence of the same Message-ID
ended differently — its id is absent from the ledger flushed at end of
run. -/
theorem C3_append_failed_not_flushed {env : Env} {msgs : List SourceMsg}
    {c0 L : List PRecord} {O : List (SourceMsg × Outcome)} {A : List AppendRec}
    {m : SourceMsg}
    (h : runScan env msgs c0 = .ok (L, O, A))
    (hm : (m, Outcome.appendFailed) ∈ O)
    (huniq : ∀ m2 o2, (m2, o2) ∈ O → m2.messageId = m.messageId → o2 = .appendFailed) :
    m.messageId ∉ L.map (fun r => r.id) := by
  intro hmem
  obtain ⟨r, hrL, hrid⟩ := List.mem_map.mp hmem
  rcases runScan_new h hrL with hr0 | ⟨m2, o2, hm2, hrec, ho2⟩
  · obtain ⟨c, c', a, hstep, hlo, -⟩ := runScan_step_of_mem h hm
    have : m.messageId ∈ c.map (fun r => r.id) :=
      List.mem_map.mpr ⟨r, hlo r hr0, hrid⟩
    exact stepMsg_appendFailed_not_mem hstep this
  · have hid2 : m2.messageId = m.messageId := by rw [hrec] at hrid; exact hrid
    have hcon := huniq m2 o2 hm2 hid2
    rcases ho2 with h' | h' <;> rw [hcon] at h' <;> exact absurd h' (by simp)

/-- A working resolver world with one PDF ticket behind every URL. -/
def envAppendFail : Env :=
  { mbox := { msgs := [], searchOk := true },
    links := fun _ => ["https://download.thetrainline.com/h#tok"],
    world := wPlainFilename,
    appendOk := false, fetchOk := fun _ => true, since := 0,
    fromAddr := "from@example.com", imapHost := "imap.example.com" }

/-- The message whose append fails in the C3 witness run. -/
def mHappy : SourceMsg :=
  { messageId := "<m1>", subject := "Your eticket", date := 5, toAddr := "a@b",
    msg := .multipart [{ contentType := "text/html", body := "H" }] }

/-- Witness for C3: a run whose only message ends in `appendFailed` flushes
a ledger without that message's id. -/
theorem C3_append_failed_not_flushed_witness :
    mHappy.messageId ∉ ([] : List PRecord).map (fun r => r.id) :=
  C3_append_failed_not_flushed
    (rfl : runScan envAppendFail [mHappy] [] = .ok ([], [(mHappy, .appendFailed)], []))
    (List.mem_singleton_self _)
    (fun _m2 _o2 hm' _ => congrArg Prod.snd (List.mem_singleton.mp hm'))

/-! ### Claim C1 -/

/-- C1: a message that ended in `appended` or `alreadyProcessed` in a first
run is in the flushed ledger, so in a second run over the same environment
and message list starting from that ledger, the decision procedure resolves
it as already processed: no append of the second run is for it, and its
outcome in the second run is `alreadyProcessed`. -/
theorem C1_idempotent_second_run {env : Env} {msgs : List SourceMsg}
    {c0 L1 L2 : List PRecord} {O1 O2 : List (SourceMsg × Outcome)}
    {A1 A2 : List AppendRec} {m : SourceMsg} {o : Outcome}
    (h1 : runScan env msgs c0 = .ok (L1, O1, A1))
    (hm : (m, o) ∈ O1)
    (ho : o = .appended ∨ o = .alreadyProcessed)
    (h2 : runScan env msgs L1 = .ok (L2, O2, A2)) :
    (∀ x ∈ A2, x.sourceId ≠ m.messageId) ∧
    (∀ o2, (m, o2) ∈ O2 → o2 = .alreadyProcessed) := by
  obtain ⟨c, c', a, hstep, hlo, hhi⟩ := runScan_step_of_mem h1 hm
  obtain ⟨hc', hf, hd⟩ := stepMsg_recorded hstep ho.symm
  have hrec : recordOf m ∈ L1 :=
    hhi _ (by rw [hc']; exact List.mem_append_right _ (List.mem_singleton_self _))
  have hid : m.messageId ∈ L1.map (fun r => r.id) :=
    List.mem_map.mpr ⟨recordOf m, hrec, rfl⟩
  obtain ⟨ha2, hos2⟩ := runScan_mem_no_append h2 hid
  refine ⟨ha2, fun o2 hmo2 => ?_⟩
  obtain ⟨-, hgo⟩ := hos2 m o2 hmo2 rfl
  exact hgo hf hd

/-- The environment of the C1 witness run: one message, one resolvable
ticket, appends succeed. -/
def envHappy : Env :=
  { mbox := { msgs := [], searchOk := true },
    links := fun _ => ["https://download.thetrainline.com/h#tok"],
    world := wPlainFilename,
    appendOk := true, fetchOk := fun _ => true, since := 0,
    fromAddr := "from@example.com", imapHost := "imap.example.com" }

/-- The reply appended in the first C1 witness run. -/
def replyHappy : ReplyEmail :=
  { subject := "Re: Your eticket", toAddr := "a@b", fromAddr := "from@example.com",
    date := 15, messageId := "<" ++ EMAIl_ID_STRING ++ "@imap.example.com>",
    inReplyTo := "<m1>", references := "<m1>",
    attachments := [{ filename := "t.pdf", payload := "PDFBYTES",
                      disposition := "attachment; filename=t.pdf" }] }

/-- Witness for C1: the first run appends and records; rerunning from the
flushed ledger yields `alreadyProcessed` and zero appends. -/
theorem C1_idempotent_second_run_witness :
    (∀ x ∈ ([] : List AppendRec), x.sourceId ≠ mHappy.messageId) ∧
    (∀ o2, (mHappy, o2) ∈ [(mHappy, Outcome.alreadyProcessed)] → o2 = .alreadyProcessed) :=
  C1_idempotent_second_run
    (rfl : runScan envHappy [mHappy] [] =
      .ok ([recordOf mHappy], [(mHappy, .appended)],
           [{ sourceId := mHappy.messageId, reply := replyHappy }]))
    (List.mem_singleton_self _)
    (Or.inl rfl)
    (rfl : runScan envHappy [mHappy] [recordOf mHappy] =
      .ok ([recordOf mHappy, recordOf mHappy], [(mHappy, .alreadyProcessed)], []))

end DownloadTickets
